import Mathlib

/-!
Verification of the Trello MCP server's request gateway, adapters and tool
dispatch layer, shallowly embedded from the TypeScript sources.

The embedding covers:
* TrelloService.addAuth and the query-parameter serialization loop shared by
  get/post/put/delete (src/services/trello-service.ts), including the
  URLSearchParams rendering (application/x-www-form-urlencoded).
* BaseService: the response interceptor (success branch updating the
  rate-limit counters, 429 branch waiting and retrying, other-error branch
  logging and rethrowing), checkRateLimit and makeRequest
  (src/services/base-service.ts).
* The singleton construction of TrelloService and ServiceFactory.
* The deletion tool handlers with their confirmation gate, and the
  CallToolRequestSchema dispatch handler of src/index.ts.
-/

namespace TrelloSpec

/-- HTTP methods used by the gateway. -/
inductive HttpMethod where
  | get
  | post
  | put
  | delete
deriving DecidableEq

/-- A caller-supplied query-parameter value, mirroring the dynamically typed
values accepted by the serialization loop in trello-service.ts: scalars,
arrays of scalars (already stringified), and the JS values undefined/null. -/
inductive ParamValue where
  | str (s : String)
  | num (n : Int)
  | bool (b : Bool)
  | arr (xs : List String)
  | undefined
  | null
deriving DecidableEq

/-- JS String(value) applied to a param value. String(array) joins with
commas, matching value.join(',') used in the array branch of the loop. -/
def stringOfParam : ParamValue → String
  | .str s => s
  | .num n => toString n
  | .bool true => "true"
  | .bool false => "false"
  | .arr xs => String.intercalate "," xs
  | .undefined => "undefined"
  | .null => "null"

/-- One iteration of the serialization loop of trello-service.ts (lines
83-91): undefined and null entries are skipped, an array value is appended
as value.join(','), any other value as String(value). -/
def serializeEntry : String × ParamValue → Option (String × String)
  | (_, .undefined) => none
  | (_, .null) => none
  | (k, .arr xs) => some (k, String.intercalate "," xs)
  | (k, v) => some (k, stringOfParam v)

/-- The whole serialization loop: the ordered pairs appended to the
URLSearchParams object. -/
def serializeParams (params : List (String × ParamValue)) : List (String × String) :=
  params.filterMap serializeEntry

/-- The sixteen hexadecimal digit characters used by percent-encoding. -/
def hexDigits : List Char := ['0', '1', '2', '3', '4', '5', '6', '7', '8', '9', 'A', 'B', 'C', 'D', 'E', 'F']

/-- Hexadecimal digit character for a value below 16. -/
def hexChar (n : Nat) : Char := hexDigits.getD n '0'

/-- Characters that application/x-www-form-urlencoded leaves unescaped. -/
def isUnreservedChar (c : Char) : Bool :=
  c.isAlphanum || c = '*' || c = '-' || c = '.' || c = '_'

/-- Percent-encoding of one character as URLSearchParams.toString() performs
it: unreserved characters kept, space as plus, anything else as a percent
escape of its code point. -/
def encodeChar (c : Char) : List Char :=
  if isUnreservedChar c then [c]
  else if c = ' ' then ['+']
  else ['%', hexChar (c.toNat / 16 % 16), hexChar (c.toNat % 16)]

/-- Percent-encoding of a whole component. -/
def encodeComponent (s : String) : String := ⟨s.data.flatMap encodeChar⟩

/-- One rendered key=value pair of URLSearchParams.toString(). -/
def renderPair (p : String × String) : String :=
  encodeComponent p.1 ++ "=" ++ encodeComponent p.2

/-- Joining rendered segments with ampersands (character-list level). -/
def ampJoin : List (List Char) → List Char
  | [] => []
  | [s] => s
  | s :: ss => s ++ '&' :: ampJoin ss

/-- URLSearchParams.toString(): the rendered pairs joined with ampersands. -/
def urlSearchParamsToString (ps : List (String × String)) : String :=
  ⟨ampJoin (ps.map fun p => (renderPair p).data)⟩

/-- url.includes(c) for a single character. -/
def includesChar (s : String) (c : Char) : Bool := s.data.contains c

/-- TrelloService.addAuth (trello-service.ts lines 67-70): append the
credential pair, with an ampersand when the URL already has a query string
and a question mark otherwise. -/
def addAuth (apiKey token url : String) : String :=
  url ++ (if includesChar url '?' then "&" else "?") ++ "key=" ++ apiKey ++ "&token=" ++ token

/-- The URL built by TrelloService.get/post/put/delete (identical in all
four): the endpoint, the rendered query string when nonempty, then
addAuth. -/
def requestUrl (apiKey token endpoint : String) (params : List (String × ParamValue)) : String :=
  addAuth apiKey token
    (endpoint ++
      (if urlSearchParamsToString (serializeParams params) = "" then ""
       else "?" ++ urlSearchParamsToString (serializeParams params)))

/-- A request descriptor as handed to the axios client. -/
structure Request where
  method : HttpMethod
  url : String
  body : Option String
deriving DecidableEq

/-- The request issued by the gateway for a given method, endpoint, caller
params and optional body (body passed by post/put, absent for get/delete). -/
def trelloRequest (apiKey token : String) (m : HttpMethod) (endpoint : String)
    (params : List (String × ParamValue)) (body : Option String) : Request :=
  ⟨m, requestUrl apiKey token endpoint params, body⟩

/-- The characters of the query string of a URL: everything after the first
question mark. -/
def queryChars (url : String) : List Char :=
  (url.data.dropWhile (· != '?')).drop 1

/-- Splitting a character list at ampersands. -/
def splitOnAmp : List Char → List (List Char)
  | [] => [[]]
  | c :: cs =>
    match splitOnAmp cs with
    | [] => [[]]
    | s :: ss => if c = '&' then [] :: s :: ss else (c :: s) :: ss

/-- The name of a query-string segment: the characters before its equals
sign. -/
def paramName (seg : List Char) : List Char := seg.takeWhile (· != '=')

/-- How many parameters of the URL's query string carry the given name. -/
def countParamOccurrences (url : String) (name : String) : Nat :=
  (splitOnAmp (queryChars url)).countP (fun seg => paramName seg == name.data)

/-! ### Helper lemmas about the query-string machinery -/

theorem stringDataInj (a b : String) (h : a.data = b.data) : a = b := by
  cases a
  cases b
  exact congrArg String.mk h

theorem hexChar_mem (n : Nat) : hexChar n ∈ hexDigits := by
  by_cases h : n < 16
  · unfold hexChar hexDigits
    interval_cases n <;> decide
  · unfold hexChar
    rw [List.getD_eq_default]
    · decide
    · simp only [hexDigits, List.length]
      omega

theorem unreserved_not_special (c : Char) (h : isUnreservedChar c = true) :
    c ≠ '&' ∧ c ≠ '=' ∧ c ≠ '?' := by
  refine ⟨?_, ?_, ?_⟩ <;> rintro rfl <;> simp [isUnreservedChar, Char.isAlphanum, Char.isAlpha, Char.isUpper, Char.isLower, Char.isDigit] at h

theorem encodeChar_not_special (c x : Char) (hx : x ∈ encodeChar c) :
    x ≠ '&' ∧ x ≠ '=' ∧ x ≠ '?' := by
  unfold encodeChar at hx
  split at hx
  · next h =>
    rcases List.mem_singleton.mp hx with rfl
    exact unreserved_not_special x h
  · split at hx
    · rcases List.mem_singleton.mp hx with rfl
      refine ⟨by decide, by decide, by decide⟩
    · simp only [List.mem_cons, List.mem_singleton, List.not_mem_nil, or_false] at hx
      rcases hx with rfl | rfl | rfl
      · exact ⟨by decide, by decide, by decide⟩
      · have hd := hexChar_mem (c.toNat / 16 % 16)
        refine ⟨?_, ?_, ?_⟩ <;> intro heq <;> rw [heq] at hd <;> exact absurd hd (by decide)
      · have hd := hexChar_mem (c.toNat % 16)
        refine ⟨?_, ?_, ?_⟩ <;> intro heq <;> rw [heq] at hd <;> exact absurd hd (by decide)

theorem encodeComponent_not_special (s : String) (x : Char)
    (hx : x ∈ (encodeComponent s).data) : x ≠ '&' ∧ x ≠ '=' ∧ x ≠ '?' := by
  unfold encodeComponent at hx
  simp only [List.mem_flatMap] at hx
  rcases hx with ⟨c, _, hc⟩
  exact encodeChar_not_special c x hc

theorem flatMap_encodeChar_self (l : List Char)
    (h : ∀ c ∈ l, isUnreservedChar c = true) : l.flatMap encodeChar = l := by
  induction l with
  | nil => rfl
  | cons c cs ih =>
    have hc := h c (List.mem_cons_self c cs)
    simp only [List.flatMap_cons, encodeChar, hc, if_pos]
    rw [ih fun d hd => h d (List.mem_cons_of_mem c hd)]
    rfl

theorem encodeComponent_self (s : String)
    (h : ∀ c ∈ s.data, isUnreservedChar c = true) : encodeComponent s = s := by
  unfold encodeComponent
  rw [flatMap_encodeChar_self s.data h]

theorem dropWhile_append_of_forall (p : Char → Bool) (a b : List Char)
    (h : ∀ c ∈ a, p c = true) : (a ++ b).dropWhile p = b.dropWhile p := by
  induction a with
  | nil => rfl
  | cons c cs ih =>
    have hc := h c (List.mem_cons_self c cs)
    simp only [List.cons_append, List.dropWhile_cons, hc, if_pos]
    exact ih fun d hd => h d (List.mem_cons_of_mem c hd)

theorem takeWhile_until_eq (a b : List Char)
    (h : ∀ c ∈ a, c ≠ '=') : (a ++ '=' :: b).takeWhile (· != '=') = a := by
  induction a with
  | nil => simp [List.takeWhile_cons]
  | cons c cs ih =>
    have hc : (c != '=') = true := bne_iff_ne.mpr (h c (List.mem_cons_self c cs))
    simp only [List.cons_append, List.takeWhile_cons, hc, if_pos]
    rw [ih fun d hd => h d (List.mem_cons_of_mem c hd)]

theorem splitOnAmp_ne_nil (l : List Char) : splitOnAmp l ≠ [] := by
  cases l with
  | nil => simp [splitOnAmp]
  | cons c cs =>
    unfold splitOnAmp
    rcases splitOnAmp cs with _ | ⟨s, ss⟩
    · simp
    · by_cases hc : c = '&' <;> simp [hc]

theorem splitOnAmp_append_no_amp (a : List Char) (h : ∀ c ∈ a, c ≠ '&') :
    ∀ b s ss, splitOnAmp b = s :: ss → splitOnAmp (a ++ b) = (a ++ s) :: ss := by
  induction a with
  | nil => intro b s ss hb; simpa using hb
  | cons c cs ih =>
    intro b s ss hb
    have hc : c ≠ '&' := h c (List.mem_cons_self c cs)
    have := ih (fun d hd => h d (List.mem_cons_of_mem c hd)) b s ss hb
    simp only [List.cons_append]
    unfold splitOnAmp
    rw [this]
    simp [hc]

theorem splitOnAmp_cons_amp (b : List Char) : splitOnAmp ('&' :: b) = [] :: splitOnAmp b := by
  cases h : splitOnAmp b with
  | nil => exact absurd h (splitOnAmp_ne_nil b)
  | cons s ss =>
    simp only [splitOnAmp]
    rw [h]
    simp

theorem splitOnAmp_no_amp (a : List Char) (h : ∀ c ∈ a, c ≠ '&') :
    splitOnAmp a = [a] := by
  have := splitOnAmp_append_no_amp a h [] [] [] rfl
  simpa using this

theorem ampJoin_cons_cons (s t : List Char) (ts : List (List Char)) :
    ampJoin (s :: t :: ts) = s ++ '&' :: ampJoin (t :: ts) := rfl

theorem ampJoin_append (a b : List (List Char)) (ha : a ≠ []) (hb : b ≠ []) :
    ampJoin (a ++ b) = ampJoin a ++ '&' :: ampJoin b := by
  induction a with
  | nil => exact absurd rfl ha
  | cons s ss ih =>
    rcases ss with _ | ⟨s₂, ss₂⟩
    · rcases b with _ | ⟨t, ts⟩
      · exact absurd rfl hb
      · rw [List.singleton_append, ampJoin_cons_cons]
        rfl
    · have h2 := ih (by simp)
      have hshape : s :: s₂ :: ss₂ ++ b = s :: s₂ :: (ss₂ ++ b) := by simp
      calc ampJoin (s :: s₂ :: ss₂ ++ b)
          = s ++ '&' :: ampJoin (s₂ :: ss₂ ++ b) := by
            rw [hshape, ampJoin_cons_cons]
            simp
        _ = s ++ '&' :: (ampJoin (s₂ :: ss₂) ++ '&' :: ampJoin b) := by rw [h2]
        _ = ampJoin (s :: s₂ :: ss₂) ++ '&' :: ampJoin b := by
            rw [ampJoin_cons_cons]
            simp

theorem splitOnAmp_ampJoin (segs : List (List Char)) (hne : segs ≠ [])
    (h : ∀ s ∈ segs, ∀ c ∈ s, c ≠ '&') : splitOnAmp (ampJoin segs) = segs := by
  induction segs with
  | nil => exact absurd rfl hne
  | cons s ss ih =>
    rcases ss with _ | ⟨s₂, ss₂⟩
    · exact splitOnAmp_no_amp s (h s (List.mem_cons_self s _))
    · have hrec := ih (by simp) fun t ht c hc => h t (List.mem_cons_of_mem s ht) c hc
      have hs : ∀ c ∈ s, c ≠ '&' := h s (List.mem_cons_self s _)
      rw [show ampJoin (s :: s₂ :: ss₂) = s ++ '&' :: ampJoin (s₂ :: ss₂) from rfl]
      rw [splitOnAmp_append_no_amp s hs ('&' :: ampJoin (s₂ :: ss₂)) [] (splitOnAmp (ampJoin (s₂ :: ss₂))) (splitOnAmp_cons_amp _), hrec]
      simp

theorem ampJoin_singleton (s : List Char) : ampJoin [s] = s := rfl

theorem includesChar_true_iff (s : String) (c : Char) : includesChar s c = true ↔ c ∈ s.data := by
  simp [includesChar, List.elem_iff]

theorem includesChar_false (s : String) (c : Char) (h : c ∉ s.data) : includesChar s c = false := by
  cases hb : includesChar s c with
  | false => rfl
  | true => exact absurd ((includesChar_true_iff s c).mp hb) h

theorem renderPair_data (p : String × String) :
    (renderPair p).data = (encodeComponent p.1).data ++ '=' :: (encodeComponent p.2).data := by
  unfold renderPair
  rw [String.data_append, String.data_append, List.append_assoc]
  rfl

theorem urlSearchParamsToString_ne_empty (q : String × String) (qs : List (String × String)) :
    urlSearchParamsToString (q :: qs) ≠ "" := by
  intro hcontra
  have hdata : (urlSearchParamsToString (q :: qs)).data = [] := by rw [hcontra]
  unfold urlSearchParamsToString at hdata
  simp only [List.map_cons] at hdata
  rcases hq : qs.map (fun p => (renderPair p).data) with _ | ⟨t, ts⟩
  · rw [hq] at hdata
    have h1 : (renderPair q).data = [] := hdata
    rw [renderPair_data] at h1
    simp at h1
  · rw [hq] at hdata
    have h1 : (renderPair q).data ++ '&' :: ampJoin (t :: ts) = [] := hdata
    simp at h1

theorem requestUrl_data (apiKey token endpoint : String) (params : List (String × ParamValue))
    (hEp : ∀ c ∈ endpoint.data, c ≠ '?') :
    (requestUrl apiKey token endpoint params).data =
      endpoint.data ++ '?' :: ampJoin ((serializeParams params).map (fun p => (renderPair p).data)
        ++ [("key=" ++ apiKey).data, ("token=" ++ token).data]) := by
  unfold requestUrl
  cases h : serializeParams params with
  | nil =>
    have h0 : urlSearchParamsToString ([] : List (String × String)) = "" := rfl
    rw [h0, if_pos rfl, String.append_empty]
    unfold addAuth
    rw [includesChar_false endpoint '?' (fun hmem => hEp '?' hmem rfl), if_neg (by simp)]
    rw [List.map_nil, List.nil_append, ampJoin_cons_cons, ampJoin_singleton]
    simp only [String.data_append, List.append_assoc]
    rfl
  | cons q qs =>
    rw [if_neg (urlSearchParamsToString_ne_empty q qs)]
    unfold addAuth
    have hinc : includesChar (endpoint ++ ("?" ++ urlSearchParamsToString (q :: qs))) '?' = true := by
      rw [includesChar_true_iff, String.data_append, String.data_append]
      refine List.mem_append_right _ (List.mem_append_left _ ?_)
      decide
    rw [hinc, if_pos rfl]
    rw [ampJoin_append _ _ (by simp) (by simp), ampJoin_cons_cons, ampJoin_singleton]
    simp only [String.data_append, List.append_assoc]
    rfl

theorem queryChars_requestUrl (apiKey token endpoint : String) (params : List (String × ParamValue))
    (hEp : ∀ c ∈ endpoint.data, c ≠ '?') :
    queryChars (requestUrl apiKey token endpoint params) =
      ampJoin ((serializeParams params).map (fun p => (renderPair p).data)
        ++ [("key=" ++ apiKey).data, ("token=" ++ token).data]) := by
  unfold queryChars
  rw [requestUrl_data apiKey token endpoint params hEp]
  rw [dropWhile_append_of_forall _ endpoint.data _ (fun c hc => bne_iff_ne.mpr (hEp c hc))]
  simp [List.dropWhile_cons]

theorem key_seg_no_amp (apiKey : String) (hKey : ∀ c ∈ apiKey.data, isUnreservedChar c = true) :
    ∀ c ∈ ("key=" ++ apiKey).data, c ≠ '&' := by
  intro c hc
  rw [String.data_append] at hc
  rcases List.mem_append.mp hc with hc | hc
  · simp only [show ("key=" : String).data = ['k', 'e', 'y', '='] from rfl, List.mem_cons,
      List.not_mem_nil, or_false] at hc
    rcases hc with rfl | rfl | rfl | rfl <;> decide
  · exact (unreserved_not_special c (hKey c hc)).1

theorem token_seg_no_amp (token : String) (hTok : ∀ c ∈ token.data, isUnreservedChar c = true) :
    ∀ c ∈ ("token=" ++ token).data, c ≠ '&' := by
  intro c hc
  rw [String.data_append] at hc
  rcases List.mem_append.mp hc with hc | hc
  · simp only [show ("token=" : String).data = ['t', 'o', 'k', 'e', 'n', '='] from rfl,
      List.mem_cons, List.not_mem_nil, or_false] at hc
    rcases hc with rfl | rfl | rfl | rfl | rfl | rfl <;> decide
  · exact (unreserved_not_special c (hTok c hc)).1

theorem render_seg_no_amp (p : String × String) : ∀ c ∈ (renderPair p).data, c ≠ '&' := by
  intro c hc
  rw [renderPair_data] at hc
  rcases List.mem_append.mp hc with hc | hc
  · exact (encodeComponent_not_special p.1 c hc).1
  · rcases List.mem_cons.mp hc with rfl | hc
    · decide
    · exact (encodeComponent_not_special p.2 c hc).1

theorem requestUrl_split (apiKey token endpoint : String) (params : List (String × ParamValue))
    (hEp : ∀ c ∈ endpoint.data, c ≠ '?')
    (hKey : ∀ c ∈ apiKey.data, isUnreservedChar c = true)
    (hTok : ∀ c ∈ token.data, isUnreservedChar c = true) :
    splitOnAmp (queryChars (requestUrl apiKey token endpoint params)) =
      (serializeParams params).map (fun p => (renderPair p).data)
        ++ [("key=" ++ apiKey).data, ("token=" ++ token).data] := by
  rw [queryChars_requestUrl apiKey token endpoint params hEp]
  apply splitOnAmp_ampJoin
  · simp
  · intro s hs
    rcases List.mem_append.mp hs with hs | hs
    · rcases List.mem_map.mp hs with ⟨p, _, rfl⟩
      exact render_seg_no_amp p
    · rcases List.mem_cons.mp hs with rfl | hs
      · exact key_seg_no_amp apiKey hKey
      · rcases List.mem_cons.mp hs with rfl | hs
        · exact token_seg_no_amp token hTok
        · cases hs

theorem paramName_renderPair (p : String × String) :
    paramName (renderPair p).data = (encodeComponent p.1).data := by
  unfold paramName
  rw [renderPair_data]
  exact takeWhile_until_eq _ _ (fun c hc => (encodeComponent_not_special p.1 c hc).2.1)

theorem paramName_key_seg (apiKey : String) :
    paramName ("key=" ++ apiKey).data = "key".data := by
  unfold paramName
  rw [String.data_append]
  have hshape : ("key=" : String).data ++ apiKey.data = "key".data ++ '=' :: apiKey.data := rfl
  rw [hshape]
  exact takeWhile_until_eq _ _ (by decide)

theorem paramName_token_seg (token : String) :
    paramName ("token=" ++ token).data = "token".data := by
  unfold paramName
  rw [String.data_append]
  have hshape : ("token=" : String).data ++ token.data = "token".data ++ '=' :: token.data := rfl
  rw [hshape]
  exact takeWhile_until_eq _ _ (by decide)

theorem serializeEntry_fst (k : String) (v : ParamValue) (q : String × String)
    (h : serializeEntry (k, v) = some q) : q.1 = k := by
  cases v with
  | undefined => simp [serializeEntry] at h
  | null => simp [serializeEntry] at h
  | arr xs =>
    have h2 : some (k, String.intercalate "," xs) = some q := h
    cases Option.some.inj h2
    rfl
  | str s =>
    have h2 : some (k, stringOfParam (.str s)) = some q := h
    cases Option.some.inj h2
    rfl
  | num n =>
    have h2 : some (k, stringOfParam (.num n)) = some q := h
    cases Option.some.inj h2
    rfl
  | bool b =>
    have h2 : some (k, stringOfParam (.bool b)) = some q := h
    cases Option.some.inj h2
    rfl

theorem serializeParams_key_mem (params : List (String × ParamValue)) (p : String × String)
    (hp : p ∈ serializeParams params) : ∃ v, (p.1, v) ∈ params := by
  unfold serializeParams at hp
  rcases List.mem_filterMap.mp hp with ⟨⟨k, v⟩, hkv, hser⟩
  have hk := serializeEntry_fst k v p hser
  exact ⟨v, by rw [hk]; exact hkv⟩

theorem countP_caller_zero (params : List (String × ParamValue)) (name : String)
    (hname : ∀ p ∈ params, p.1 ≠ name ∧ ∀ c ∈ p.1.data, isUnreservedChar c = true) :
    ((serializeParams params).map (fun p => (renderPair p).data)).countP
      (fun seg => paramName seg == name.data) = 0 := by
  rw [List.countP_eq_zero]
  intro seg hseg
  rcases List.mem_map.mp hseg with ⟨p, hp, rfl⟩
  rw [paramName_renderPair]
  rcases serializeParams_key_mem params p hp with ⟨v, hv⟩
  have h1 := hname (p.1, v) hv
  rw [encodeComponent_self p.1 h1.2]
  simp only [beq_iff_eq]
  intro hdata
  exact h1.1 (stringDataInj _ _ hdata)

/-- Claim C1: for every HTTP method, endpoint (a resource path, containing no
question mark) and caller-supplied query-parameter map whose keys are plain
identifiers and contain neither a key nor a token entry, with credentials
drawn from unreserved characters, the URL the gateway sends contains exactly
one key parameter and exactly one token parameter, both placed after all
caller-supplied parameters, joined to the URL with a question mark when the
URL so far has no query string and with an ampersand when it already has
one. -/
theorem c1_auth_params_appended (m : HttpMethod) (endpoint : String)
    (params : List (String × ParamValue)) (apiKey token : String) (body : Option String)
    (hEp : ∀ c ∈ endpoint.data, c ≠ '?')
    (hKey : ∀ c ∈ apiKey.data, isUnreservedChar c = true)
    (hTok : ∀ c ∈ token.data, isUnreservedChar c = true)
    (hParams : ∀ p ∈ params, p.1 ≠ "key" ∧ p.1 ≠ "token" ∧
      ∀ c ∈ p.1.data, isUnreservedChar c = true) :
    countParamOccurrences (trelloRequest apiKey token m endpoint params body).url "key" = 1 ∧
    countParamOccurrences (trelloRequest apiKey token m endpoint params body).url "token" = 1 ∧
    splitOnAmp (queryChars (trelloRequest apiKey token m endpoint params body).url) =
      (serializeParams params).map (fun p => (renderPair p).data)
        ++ [("key=" ++ apiKey).data, ("token=" ++ token).data] ∧
    (serializeParams params = [] →
      (trelloRequest apiKey token m endpoint params body).url =
        endpoint ++ "?" ++ ("key=" ++ apiKey ++ "&token=" ++ token)) ∧
    (serializeParams params ≠ [] →
      (trelloRequest apiKey token m endpoint params body).url =
        endpoint ++ "?" ++ urlSearchParamsToString (serializeParams params) ++ "&" ++
          ("key=" ++ apiKey ++ "&token=" ++ token)) := by
  have hsplit := requestUrl_split apiKey token endpoint params hEp hKey hTok
  have hurl : (trelloRequest apiKey token m endpoint params body).url =
      requestUrl apiKey token endpoint params := rfl
  refine ⟨?_, ?_, ?_, ?_, ?_⟩
  · unfold countParamOccurrences
    rw [hurl, hsplit, List.countP_append,
      countP_caller_zero params "key" (fun p hp => ⟨(hParams p hp).1, (hParams p hp).2.2⟩)]
    simp only [List.countP_cons, List.countP_nil, paramName_key_seg, paramName_token_seg]
    decide
  · unfold countParamOccurrences
    rw [hurl, hsplit, List.countP_append,
      countP_caller_zero params "token" (fun p hp => ⟨(hParams p hp).2.1, (hParams p hp).2.2⟩)]
    simp only [List.countP_cons, List.countP_nil, paramName_key_seg, paramName_token_seg]
    decide
  · rw [hurl]
    exact hsplit
  · intro hempty
    rw [hurl]
    apply stringDataInj
    rw [requestUrl_data apiKey token endpoint params hEp, hempty]
    simp only [List.map_nil, List.nil_append, ampJoin_cons_cons, ampJoin_singleton,
      String.data_append, List.append_assoc]
    rfl
  · intro hne
    rw [hurl]
    apply stringDataInj
    rw [requestUrl_data apiKey token endpoint params hEp]
    rcases hq : serializeParams params with _ | ⟨q, qs⟩
    · exact absurd hq hne
    · rw [ampJoin_append _ _ (by simp) (by simp), ampJoin_cons_cons, ampJoin_singleton]
      simp only [String.data_append, List.append_assoc]
      rfl

/-- Witness for C1: a concrete GET request to a board endpoint with one kept
and one skipped caller parameter. -/
theorem c1_auth_params_appended_witness :
    countParamOccurrences (trelloRequest "k1" "t1" HttpMethod.get "/boards/abc"
      [("fields", ParamValue.str "name"), ("skip", ParamValue.undefined)] none).url "key" = 1 ∧
    countParamOccurrences (trelloRequest "k1" "t1" HttpMethod.get "/boards/abc"
      [("fields", ParamValue.str "name"), ("skip", ParamValue.undefined)] none).url "token" = 1 :=
  ⟨(c1_auth_params_appended .get "/boards/abc"
      [("fields", ParamValue.str "name"), ("skip", ParamValue.undefined)] "k1" "t1" none
      (by decide) (by decide) (by decide) (by decide)).1,
   (c1_auth_params_appended .get "/boards/abc"
      [("fields", ParamValue.str "name"), ("skip", ParamValue.undefined)] "k1" "t1" none
      (by decide) (by decide) (by decide) (by decide)).2.1⟩

/-! ### BaseService: rate-limit state, response interceptor, retry loop -/

/-- The mutable state of a BaseService/TrelloService instance: the credential
pair (set once by the TrelloService constructor) and the two rate-limit
counters (rateLimitRemaining starts at 100, rateLimitReset at 0). -/
structure GatewayState where
  apiKey : String
  token : String
  rateLimitRemaining : Nat
  rateLimitReset : Nat
deriving DecidableEq

/-- The state of a freshly constructed TrelloService. -/
def initialGatewayState (apiKey token : String) : GatewayState :=
  ⟨apiKey, token, 100, 0⟩

/-- The success branch of the response interceptor (base-service.ts): update
each rate-limit counter from its x-ratelimit header when the header is
present (the code tests the header string for truthiness; rate-limit headers
carry numeric values, modelled here as the parsed number). -/
def handleSuccessResponse (st : GatewayState) (remainingHdr resetHdr : Option Nat) : GatewayState :=
  let st1 := match remainingHdr with
    | some v => { st with rateLimitRemaining := v }
    | none => st
  match resetHdr with
  | some v => { st1 with rateLimitReset := v }
  | none => st1

/-- BaseService.checkRateLimit, expressed as the time at which the request
is allowed to proceed: when rateLimitRemaining is at most the buffer of 5
and waitTime = max(0, rateLimitReset - now) is positive, the call sleeps
waitTime seconds; otherwise it proceeds at once. Natural-number subtraction
truncates at zero exactly like Math.max(0, ...). -/
def checkRateLimit (rateLimitRemaining rateLimitReset now : Nat) : Nat :=
  if rateLimitRemaining ≤ 5 then
    if 0 < rateLimitReset - now then now + (rateLimitReset - now) else now
  else now

/-- The send time of BaseService.makeRequest: it awaits checkRateLimit
before invoking the request function. -/
def makeRequestSendTime (st : GatewayState) (now : Nat) : Nat :=
  checkRateLimit st.rateLimitRemaining st.rateLimitReset now

/-- One scripted remote response, as seen by the response interceptor. -/
inductive TrelloResponse where
  | ok (remainingHdr resetHdr : Option Nat) (body : String)
  | rateLimited (resetHdr : Option Nat)
  | failed (status : Nat)
deriving DecidableEq

/-- One attempt of the 429 retry loop: the second at which the request was
(re-)issued and the response it received. -/
structure Attempt where
  sentAt : Nat
  resp : TrelloResponse
deriving DecidableEq

/-- The final outcome of the retry loop. -/
inductive RequestOutcome where
  | success (body : String)
  | failure (status : Nat)
  | pending
deriving DecidableEq

/-- The 429 branch of the response interceptor (base-service.ts lines
298-311), run against a script of remote responses: on 429 it reads
resetTime from the x-ratelimit-reset header (parseInt of the header or of
the fallback string zero), waits max(0, resetTime - now) seconds, and
re-issues the identical request (error.config); on a 2xx response the loop
ends returning that body; on any other error it ends with that status. An
exhausted script leaves the request pending (still in flight). -/
def retryLoop : Nat → List TrelloResponse → List Attempt × RequestOutcome
  | _, [] => ([], .pending)
  | now, .ok rh th b :: _ => ([⟨now, .ok rh th b⟩], .success b)
  | now, .failed s :: _ => ([⟨now, .failed s⟩], .failure s)
  | now, .rateLimited resetHdr :: rest =>
    ((⟨now, .rateLimited resetHdr⟩ :: (retryLoop (now + (resetHdr.getD 0 - now)) rest).1),
      (retryLoop (now + (resetHdr.getD 0 - now)) rest).2)

/-- An error as classified by BaseService.getFriendlyErrorMessage: the
optional HTTP status of the failed response and the error message. -/
structure ApiError where
  status : Option Nat
  message : String
deriving DecidableEq

/-- BaseService.getFriendlyErrorMessage (base-service.ts lines 378-404):
a user-facing message chosen by the response status. -/
def getFriendlyErrorMessage (e : ApiError) : String :=
  match e.status with
  | some 400 => "The request was invalid. Please check your input."
  | some 401 => "Authentication failed. Please check your API key."
  | some 403 => "You do not have permission to access this resource."
  | some 404 => "The requested resource was not found."
  | some 429 => "Rate limit exceeded. Please try again later."
  | some 500 => "The server encountered an error. Please try again later."
  | some 502 => "The server encountered an error. Please try again later."
  | some 503 => "The server encountered an error. Please try again later."
  | some 504 => "The server encountered an error. Please try again later."
  | _ => "An error occurred: " ++ e.message

/-- BaseService.handleRequestError: the log lines it writes (it has no other
effect and does not modify the error). -/
def handleRequestError (e : ApiError) : List String :=
  ["API Error", "Friendly error message: " ++ getFriendlyErrorMessage e]

/-- The non-429 branch of the response interceptor: handleRequestError is
called for its logging and the original error is rethrown unchanged. -/
def interceptorOnError (e : ApiError) : List String × Except ApiError String :=
  (handleRequestError e, .error e)

/-- BaseService.makeRequest error handling: the request function's result is
returned as is; on error, handleRequestError logs and the same error is
rethrown. -/
def makeRequest (res : Except ApiError String) : List String × Except ApiError String :=
  match res with
  | .ok v => ([], .ok v)
  | .error e => (handleRequestError e, .error e)

theorem retryLoop_head_sentAt (now : Nat) (script : List TrelloResponse) (a : Attempt)
    (h : (retryLoop now script).1.head? = some a) : a.sentAt = now := by
  cases script with
  | nil => simp [retryLoop] at h
  | cons r rest =>
    cases r with
    | ok rh th b =>
      simp only [retryLoop, List.head?_cons, Option.some.injEq] at h
      rw [← h]
    | failed s =>
      simp only [retryLoop, List.head?_cons, Option.some.injEq] at h
      rw [← h]
    | rateLimited hdr =>
      simp only [retryLoop, List.head?_cons, Option.some.injEq] at h
      rw [← h]

/-- Claim C2: on a 429 the gateway computes the wait as max(0, resetTime -
now) with an absent header treated as now (zero wait), suspends, and
re-issues the identical request; consecutive attempts therefore satisfy
next.sentAt = max(prev.sentAt, resetTime), so the request is never re-issued
before the reset time; a 2xx response ends the loop immediately with that
body as the result, and the loop only continues past an attempt that was
rate limited. -/
theorem c2_retry_on_429 (now : Nat) (script : List TrelloResponse) :
    List.Chain' (fun a b => ∀ hdr, a.resp = .rateLimited hdr →
        (b.sentAt = max a.sentAt (hdr.getD 0) ∧ hdr.getD 0 ≤ b.sentAt))
      (retryLoop now script).1 ∧
    (∀ pre a post, (retryLoop now script).1 = pre ++ a :: post →
      (∀ rh th b, a.resp = .ok rh th b →
        post = [] ∧ (retryLoop now script).2 = .success b) ∧
      (post ≠ [] → ∃ hdr, a.resp = .rateLimited hdr)) := by
  induction script generalizing now with
  | nil =>
    refine ⟨by simp [retryLoop], ?_⟩
    intro pre a post hdec
    simp [retryLoop] at hdec
  | cons r rest ih =>
    cases r with
    | ok rh th b =>
      refine ⟨by simp [retryLoop], ?_⟩
      intro pre a post hdec
      have h1 : ([⟨now, .ok rh th b⟩] : List Attempt) = pre ++ a :: post := hdec
      rcases pre with _ | ⟨p, ps⟩
      · rcases List.cons.inj h1.symm with ⟨rfl, h3⟩
        refine ⟨?_, ?_⟩
        · intro rh' th' b' hresp
          cases hresp
          exact ⟨h3, rfl⟩
        · intro hpost
          exact absurd h3 hpost
      · rcases List.cons.inj h1 with ⟨rfl, h3⟩
        exact absurd h3 (by simp)
    | failed s =>
      refine ⟨by simp [retryLoop], ?_⟩
      intro pre a post hdec
      have h1 : ([⟨now, .failed s⟩] : List Attempt) = pre ++ a :: post := hdec
      rcases pre with _ | ⟨p, ps⟩
      · rcases List.cons.inj h1.symm with ⟨rfl, h3⟩
        refine ⟨?_, ?_⟩
        · intro rh' th' b' hresp
          cases hresp
        · intro hpost
          exact absurd h3 hpost
      · rcases List.cons.inj h1 with ⟨rfl, h3⟩
        exact absurd h3 (by simp)
    | rateLimited hdr =>
      have hshape : (retryLoop now (.rateLimited hdr :: rest)).1 =
          ⟨now, .rateLimited hdr⟩ :: (retryLoop (now + (hdr.getD 0 - now)) rest).1 := rfl
      have houtcome : (retryLoop now (.rateLimited hdr :: rest)).2 =
          (retryLoop (now + (hdr.getD 0 - now)) rest).2 := rfl
      constructor
      · rw [hshape, List.chain'_cons']
        constructor
        · intro b hb hdr' heq
          have hsent := retryLoop_head_sentAt (now + (hdr.getD 0 - now)) rest b
            (Option.mem_def.mp hb)
          injection heq with h2
          subst h2
          rw [show (⟨now, TrelloResponse.rateLimited hdr⟩ : Attempt).sentAt = now from rfl,
            hsent]
          constructor <;> omega
        · exact (ih (now + (hdr.getD 0 - now))).1
      · intro pre a post hdec
        rw [hshape] at hdec
        rcases pre with _ | ⟨p, ps⟩
        · rcases List.cons.inj hdec with ⟨rfl, h3⟩
          refine ⟨?_, ?_⟩
          · intro rh' th' b' hresp
            cases hresp
          · intro _
            exact ⟨hdr, rfl⟩
        · rcases List.cons.inj hdec with ⟨rfl, h3⟩
          have hrec := (ih (now + (hdr.getD 0 - now))).2 ps a post h3
          refine ⟨?_, hrec.2⟩
          intro rh' th' b' hresp
          have h4 := hrec.1 rh' th' b' hresp
          exact ⟨h4.1, by rw [houtcome]; exact h4.2⟩

/-- Witness for C2: with the clock at 3 and a script of one 429 carrying
reset time 10 followed by a 2xx, the retry is issued at second 10 and the
loop returns the 2xx body. -/
theorem c2_retry_on_429_witness :
    (retryLoop 3 [.rateLimited (some 10), .ok none none "done"]).2 =
      RequestOutcome.success "done" ∧
    List.Chain' (fun a b => ∀ hdr, a.resp = .rateLimited hdr →
        (b.sentAt = max a.sentAt (hdr.getD 0) ∧ hdr.getD 0 ≤ b.sentAt))
      (retryLoop 3 [.rateLimited (some 10), .ok none none "done"]).1 :=
  ⟨(((c2_retry_on_429 3 [.rateLimited (some 10), .ok none none "done"]).2
      [⟨3, .rateLimited (some 10)⟩] ⟨10, .ok none none "done"⟩ []
      (by decide)).1 none none "done" rfl).2,
   (c2_retry_on_429 3 [.rateLimited (some 10), .ok none none "done"]).1⟩

/-- Claim C3: before a request is issued, when the tracked remaining count
is at most the buffer of 5 and the tracked reset time is strictly in the
future, the call waits until the reset time; when the remaining count
exceeds 5, or the reset time is not in the future, it proceeds at once.
The check depends only on the tracked counters, never on whether a 429 was
ever received. -/
theorem c3_preflight_throttle (st : GatewayState) (now : Nat) :
    (st.rateLimitRemaining ≤ 5 → now < st.rateLimitReset →
      makeRequestSendTime st now = st.rateLimitReset) ∧
    (5 < st.rateLimitRemaining → makeRequestSendTime st now = now) ∧
    (st.rateLimitReset ≤ now → makeRequestSendTime st now = now) := by
  unfold makeRequestSendTime checkRateLimit
  refine ⟨?_, ?_, ?_⟩
  · intro h1 h2
    rw [if_pos h1, if_pos (by omega)]
    omega
  · intro h1
    rw [if_neg (by omega)]
  · intro h1
    by_cases h2 : st.rateLimitRemaining ≤ 5
    · rw [if_pos h2, if_neg (by omega)]
    · rw [if_neg h2]

/-- Witness for C3: remaining 3 with reset time 100 delays a call at second
50 until 100; the initial state (remaining 100, no 429 ever seen) sends at
once. -/
theorem c3_preflight_throttle_witness :
    makeRequestSendTime ⟨"k", "t", 3, 100⟩ 50 = 100 ∧
    makeRequestSendTime (initialGatewayState "k" "t") 7 = 7 :=
  ⟨(c3_preflight_throttle ⟨"k", "t", 3, 100⟩ 50).1 (by decide) (by decide),
   (c3_preflight_throttle (initialGatewayState "k" "t") 7).2.1 (by decide)⟩

/-- Claim C5: a request failing with a status other than 429 is not retried
(its trace is the single failed attempt, whatever responses would follow),
and the error reaching the caller through the interceptor and makeRequest is
the original error object unchanged; both layers only log. -/
theorem c5_errors_not_retried_unchanged (now s : Nat) (rest : List TrelloResponse)
    (e : ApiError) :
    retryLoop now (.failed s :: rest) = ([⟨now, .failed s⟩], .failure s) ∧
    (interceptorOnError e).2 = .error e ∧
    (makeRequest (interceptorOnError e).2).2 = .error e ∧
    makeRequest (.error e) = (handleRequestError e, .error e) :=
  ⟨rfl, rfl, rfl, rfl⟩

/-- Claim C7: a 2xx response updates rateLimitRemaining and rateLimitReset
to the header values exactly when the headers are present, leaves each
counter unchanged when its header is absent, and mutates nothing else of
the gateway state (the credential pair is untouched). -/
theorem c7_success_updates_only_counters (st : GatewayState) (rh th : Option Nat) :
    (handleSuccessResponse st rh th).rateLimitRemaining = rh.getD st.rateLimitRemaining ∧
    (handleSuccessResponse st rh th).rateLimitReset = th.getD st.rateLimitReset ∧
    (handleSuccessResponse st rh th).apiKey = st.apiKey ∧
    (handleSuccessResponse st rh th).token = st.token := by
  cases rh <;> cases th <;> simp [handleSuccessResponse]

/-! ### Singleton construction of TrelloService and ServiceFactory -/

/-- The immutable per-instance data of a TrelloService: the credential pair
assigned once in the private constructor. -/
structure TrelloServiceData where
  apiKey : String
  token : String
deriving DecidableEq

/-- TrelloService.initialize (trello-service.ts lines 43-48), acting on the
static instance slot: construct the instance only when the slot is empty,
then return the slot's occupant. -/
def trelloInit (inst : Option TrelloServiceData) (apiKey token : String) :
    Option TrelloServiceData × TrelloServiceData :=
  match inst with
  | none => (some ⟨apiKey, token⟩, ⟨apiKey, token⟩)
  | some i => (some i, i)

/-- The per-instance data of a ServiceFactory: the TrelloService it wraps
(the per-resource services it constructs all share that TrelloService). -/
structure ServiceFactoryData where
  trelloService : TrelloServiceData
deriving DecidableEq

/-- ServiceFactory.initialize (service-factory.ts lines 49-55), acting on
both static slots: when the factory slot is empty it first runs
TrelloService.initialize and wraps the resulting service; otherwise both
slots and the returned factory are untouched. -/
def factoryInit (fInst : Option ServiceFactoryData) (tInst : Option TrelloServiceData)
    (apiKey token : String) :
    Option ServiceFactoryData × Option TrelloServiceData × ServiceFactoryData :=
  match fInst with
  | none =>
    (some ⟨(trelloInit tInst apiKey token).2⟩, (trelloInit tInst apiKey token).1,
      ⟨(trelloInit tInst apiKey token).2⟩)
  | some f => (some f, tInst, f)

/-- Claim C9: after the first initialize call, every later initialize call
(on TrelloService or ServiceFactory) returns the original instance
unchanged, the new credential pair is discarded, and every subsequent
request still authenticates (via addAuth) with the original pair; the
stored credentials are never replaced. -/
theorem c9_singleton_credentials_immutable (k1 t1 k2 t2 url : String) :
    (trelloInit (trelloInit none k1 t1).1 k2 t2).1 = (trelloInit none k1 t1).1 ∧
    (trelloInit (trelloInit none k1 t1).1 k2 t2).2 = (trelloInit none k1 t1).2 ∧
    (trelloInit (trelloInit none k1 t1).1 k2 t2).2.apiKey = k1 ∧
    (trelloInit (trelloInit none k1 t1).1 k2 t2).2.token = t1 ∧
    (∀ i k t, trelloInit (some i) k t = (some i, i)) ∧
    addAuth (trelloInit (trelloInit none k1 t1).1 k2 t2).2.apiKey
      (trelloInit (trelloInit none k1 t1).1 k2 t2).2.token url = addAuth k1 t1 url ∧
    (factoryInit (factoryInit none none k1 t1).1 (factoryInit none none k1 t1).2.1 k2 t2).2.2
      = (factoryInit none none k1 t1).2.2 ∧
    (factoryInit (factoryInit none none k1 t1).1 (factoryInit none none k1 t1).2.1 k2 t2).2.2.trelloService.apiKey
      = k1 ∧
    (factoryInit (factoryInit none none k1 t1).1 (factoryInit none none k1 t1).2.1 k2 t2).2.2.trelloService.token
      = t1 ∧
    (∀ f t k tok, factoryInit (some f) t k tok = (some f, t, f)) :=
  ⟨rfl, rfl, rfl, rfl, fun _ _ _ => rfl, rfl, rfl, rfl, rfl, fun _ _ _ _ => rfl⟩

/-! ### Serialization claims C8 and C10 -/

/-- Claim C8: an array-valued entry of the query-parameter map is serialized
as a single parameter whose value is the array's elements joined with
commas, at the entry's position in the map. -/
theorem c8_array_params_comma_joined (ps1 ps2 : List (String × ParamValue))
    (k : String) (xs : List String) :
    serializeParams (ps1 ++ (k, ParamValue.arr xs) :: ps2) =
      serializeParams ps1 ++ (k, String.intercalate "," xs) :: serializeParams ps2 := by
  unfold serializeParams
  rw [List.filterMap_append]
  rfl

/-- Claim C10: an undefined- or null-valued entry contributes nothing to the
query string, while an entry of any other value is stringified and included
at its position. -/
theorem c10_null_undefined_skipped (ps1 ps2 : List (String × ParamValue))
    (k : String) (v : ParamValue) :
    (v = ParamValue.undefined ∨ v = ParamValue.null →
      serializeParams (ps1 ++ (k, v) :: ps2) = serializeParams ps1 ++ serializeParams ps2) ∧
    (v ≠ ParamValue.undefined → v ≠ ParamValue.null →
      serializeParams (ps1 ++ (k, v) :: ps2) =
        serializeParams ps1 ++ (k, stringOfParam v) :: serializeParams ps2) := by
  constructor
  · rintro (rfl | rfl) <;>
      (unfold serializeParams; rw [List.filterMap_append]; rfl)
  · intro h1 h2
    unfold serializeParams
    rw [List.filterMap_append]
    cases v with
    | undefined => exact absurd rfl h1
    | null => exact absurd rfl h2
    | str s => rfl
    | num n => rfl
    | bool b => rfl
    | arr xs => rfl

/-- Witness for C10: a concrete map with one undefined, one null and one
kept entry. -/
theorem c10_null_undefined_skipped_witness :
    serializeParams [("a", ParamValue.str "1"), ("b", ParamValue.undefined), ("c", ParamValue.num 2)] =
      [("a", "1"), ("c", "2")] ∧
    serializeParams [("n", ParamValue.null)] = [] :=
  ⟨by
    have h := (c10_null_undefined_skipped [("a", ParamValue.str "1")]
      [("c", ParamValue.num 2)] "b" ParamValue.undefined).1 (Or.inl rfl)
    show serializeParams ([("a", ParamValue.str "1")] ++
      ("b", ParamValue.undefined) :: [("c", ParamValue.num 2)]) = [("a", "1"), ("c", "2")]
    rw [h]
    decide,
   by
    have h := (c10_null_undefined_skipped [] [] "n" ParamValue.null).1 (Or.inr rfl)
    show serializeParams ([] ++ ("n", ParamValue.null) :: []) = []
    rw [h]
    rfl⟩

/-! ### Deletion tool handlers and their confirmation gate -/

/-- A call issued to the gateway by an adapter method. -/
structure GatewayCall where
  method : HttpMethod
  endpoint : String
deriving DecidableEq

/-- CardService.deleteCard: one DELETE of /cards/{cardId}. -/
def deleteCard (cardId : String) : GatewayCall :=
  ⟨.delete, "/cards/" ++ cardId⟩

/-- BoardService.deleteBoard: one DELETE of /boards/{boardId}. -/
def deleteBoard (boardId : String) : GatewayCall :=
  ⟨.delete, "/boards/" ++ boardId⟩

/-- LabelService.deleteLabel: one DELETE of /labels/{labelId}. -/
def deleteLabel (labelId : String) : GatewayCall :=
  ⟨.delete, "/labels/" ++ labelId⟩

/-- ChecklistService.deleteChecklist: one DELETE of
/checklists/{checklistId}. -/
def deleteChecklist (checklistId : String) : GatewayCall :=
  ⟨.delete, "/checklists/" ++ checklistId⟩

/-- ChecklistService.deleteCheckItem: one DELETE of
/checklists/{checklistId}/checkItems/{checkItemId}. -/
def deleteCheckItem (checklistId checkItemId : String) : GatewayCall :=
  ⟨.delete, "/checklists/" ++ checklistId ++ "/checkItems/" ++ checkItemId⟩

/-- CardService.deleteAttachment: one DELETE of
/cards/{cardId}/attachments/{attachmentId}. -/
def deleteAttachment (cardId attachmentId : String) : GatewayCall :=
  ⟨.delete, "/cards/" ++ cardId ++ "/attachments/" ++ attachmentId⟩

/-- The JSON argument object handed to a tool handler, restricted to the
fields the deletion handlers read. A missing confirm field is none; JS
treats both a missing field and false as falsy in the confirmation check. -/
structure ToolArgs where
  confirm : Option Bool := none
  boardId : String := ""
  cardId : String := ""
  labelId : String := ""
  checklistId : String := ""
  checkItemId : String := ""
  attachmentId : String := ""
deriving DecidableEq

/-- Truthiness of args.confirm as tested by the handlers. -/
def confirmTruthy (args : ToolArgs) : Bool := args.confirm == some true

/-- The result of running a tool handler: the gateway calls it performed and
its returned value or thrown error message. -/
structure HandlerResult where
  calls : List GatewayCall
  result : Except String String

/-- The confirmation error message thrown by the guarded delete handlers. -/
def confirmError : String := "Deletion requires confirmation. Set confirm: true to proceed."

/-- cardToolHandlers.delete_card (card-tool-handlers.ts lines 50-58): throws
before any service access unless args.confirm is truthy, then issues the one
DELETE via CardService.deleteCard. -/
def delete_card (args : ToolArgs) : HandlerResult :=
  if !confirmTruthy args then ⟨[], .error confirmError⟩
  else ⟨[deleteCard args.cardId], .ok "Card deleted successfully"⟩

/-- boardToolHandlers.delete_board: same confirmation gate, then one DELETE
via BoardService.deleteBoard. -/
def delete_board (args : ToolArgs) : HandlerResult :=
  if !confirmTruthy args then ⟨[], .error confirmError⟩
  else ⟨[deleteBoard args.boardId], .ok "Board deleted successfully"⟩

/-- labelToolHandlers.delete_label: same confirmation gate, then one DELETE
via LabelService.deleteLabel. -/
def delete_label (args : ToolArgs) : HandlerResult :=
  if !confirmTruthy args then ⟨[], .error confirmError⟩
  else ⟨[deleteLabel args.labelId], .ok "Label deleted successfully"⟩

/-- checklistToolHandlers.delete_checklist: no confirmation check in the
source; it always issues the DELETE via ChecklistService.deleteChecklist. -/
def delete_checklist (args : ToolArgs) : HandlerResult :=
  ⟨[deleteChecklist args.checklistId], .ok "Checklist deleted successfully"⟩

/-- checklistToolHandlers.delete_checkitem: no confirmation check in the
source; it always issues the DELETE via ChecklistService.deleteCheckItem. -/
def delete_checkitem (args : ToolArgs) : HandlerResult :=
  ⟨[deleteCheckItem args.checklistId args.checkItemId], .ok "Checkitem deleted successfully"⟩

/-- cardToolHandlers.delete_attachment: no confirmation check in the source;
it always issues the DELETE via CardService.deleteAttachment. -/
def delete_attachment (args : ToolArgs) : HandlerResult :=
  ⟨[deleteAttachment args.cardId args.attachmentId], .ok "Attachment deleted successfully"⟩

/-- Counterexample to claim C4: delete_checklist called without any confirm
field does not fail locally; it issues its DELETE request anyway. -/
theorem c4_confirmation_counterexample :
    (delete_checklist { checklistId := "cl1" }).calls =
      [⟨HttpMethod.delete, "/checklists/cl1"⟩] ∧
    (delete_checklist { checklistId := "cl1" }).result =
      Except.ok "Checklist deleted successfully" := by
  constructor <;> rfl

/-- Claim C4 as amended: delete_board, delete_card and delete_label fail
locally with no gateway call when args.confirm is not true, and issue
exactly one DELETE when it is; delete_checklist, delete_checkitem and
delete_attachment perform no confirmation check and always issue exactly
one DELETE. -/
theorem c4_amended_confirmation_gate (args : ToolArgs) :
    (confirmTruthy args = false →
      delete_card args = ⟨[], .error confirmError⟩ ∧
      delete_board args = ⟨[], .error confirmError⟩ ∧
      delete_label args = ⟨[], .error confirmError⟩) ∧
    (confirmTruthy args = true →
      (delete_card args).calls = [deleteCard args.cardId] ∧
      (delete_board args).calls = [deleteBoard args.boardId] ∧
      (delete_label args).calls = [deleteLabel args.labelId]) ∧
    (delete_checklist args).calls = [deleteChecklist args.checklistId] ∧
    (delete_checkitem args).calls = [deleteCheckItem args.checklistId args.checkItemId] ∧
    (delete_attachment args).calls = [deleteAttachment args.cardId args.attachmentId] := by
  refine ⟨?_, ?_, rfl, rfl, rfl⟩
  · intro h
    unfold delete_card delete_board delete_label
    rw [h]
    exact ⟨rfl, rfl, rfl⟩
  · intro h
    unfold delete_card delete_board delete_label
    rw [h]
    exact ⟨rfl, rfl, rfl⟩

/-- Witness for the amended C4: a concrete unconfirmed call fails without a
gateway call and a concrete confirmed call issues the single DELETE. -/
theorem c4_amended_confirmation_gate_witness :
    delete_card { cardId := "c9" } = ⟨[], .error confirmError⟩ ∧
    (delete_card { cardId := "c9", confirm := some true }).calls =
      [deleteCard "c9"] :=
  ⟨((c4_amended_confirmation_gate { cardId := "c9" }).1 (by decide)).1,
   ((c4_amended_confirmation_gate { cardId := "c9", confirm := some true }).2.1 (by decide)).1⟩

/-! ### Tool dispatch (src/index.ts, CallToolRequestSchema handler) -/

/-- The keys of the trelloToolHandlers object: all handler names registered
by trello-tool-handlers.ts through the six spread handler groups (board,
list, card, member, label, checklist). -/
def registeredToolNames : List String :=
  ["get_boards", "get_board", "create_board", "update_board", "delete_board",
   "get_board_lists", "get_board_members", "get_board_labels", "close_board",
   "reopen_board",
   "get_list", "create_list", "update_list", "archive_list", "unarchive_list",
   "move_list_to_board", "get_cards_in_list", "archive_all_cards",
   "move_all_cards", "update_list_position", "update_list_name",
   "subscribe_to_list",
   "get_card", "create_card", "update_card", "delete_card", "archive_card",
   "unarchive_card", "move_card_to_list", "add_comment", "get_comments",
   "add_attachment", "get_attachments", "delete_attachment", "add_member",
   "remove_member", "add_label", "remove_label", "set_due_date",
   "set_due_complete",
   "get_me", "get_member", "get_member_boards", "get_member_cards",
   "get_boards_invited", "get_member_organizations", "get_notifications",
   "update_me", "get_avatar", "search_members", "get_organization_members",
   "get_card_members",
   "get_label", "create_label", "update_label", "delete_label",
   "update_label_name", "update_label_color", "create_label_on_card",
   "get_card_labels", "add_label_to_card", "remove_label_from_card",
   "get_checklist", "create_checklist", "update_checklist", "delete_checklist",
   "get_checkitems", "create_checkitem", "get_checkitem", "update_checkitem",
   "delete_checkitem", "update_checklist_name", "update_checklist_position",
   "get_checklist_board", "get_checklist_card",
   "update_checkitem_state_on_card"]

/-- The error codes of the MCP SDK used by the dispatch handler. -/
inductive ErrorCode where
  | methodNotFound
deriving DecidableEq

/-- An McpError as thrown by the dispatch handler. -/
structure McpError where
  code : ErrorCode
  message : String
deriving DecidableEq

/-- The property names every plain object literal inherits from
Object.prototype: indexing the handler table with one of these yields a
truthy value (a built-in function, or the prototype object itself for the
dunder-proto accessor) even though none of them is a registered tool. -/
def objectPrototypeProps : List String :=
  ["constructor", "hasOwnProperty", "isPrototypeOf", "propertyIsEnumerable",
   "toLocaleString", "toString", "valueOf", "__defineGetter__",
   "__defineSetter__", "__lookupGetter__", "__lookupSetter__", "__proto__"]

/-- The value of the JS property access trelloToolHandlers[toolName]
(index.ts line 124): an own property (a registered handler function), else
a truthy property inherited from Object.prototype, else undefined. -/
inductive PropertyValue where
  | own (h : ToolArgs → HandlerResult)
  | inherited (name : String)
  | undefined

/-- JS property lookup on the handler object literal, including the
prototype chain. -/
def getProperty (table : List (String × (ToolArgs → HandlerResult)))
    (name : String) : PropertyValue :=
  match List.lookup name table with
  | some h => .own h
  | none => if name ∈ objectPrototypeProps then .inherited name else .undefined

/-- What the CallToolRequestSchema handler returns to the protocol client:
a rethrown McpError, an error payload wrapping a handler exception, the
JSON-serialized handler result, or — when the looked-up name hit a truthy
inherited Object.prototype property, so the falsiness guard did not fire —
the invocation of that inherited value. Depending on the property that
invocation ends as a serialized result or as a caught TypeError wrapped in
an error payload, but never as an McpError(MethodNotFound); the model keeps
it abstract as inheritedInvocation. -/
inductive CallToolOutcome where
  | mcpError (e : McpError)
  | errorText (msg : String)
  | success (text : String)
  | inheritedInvocation (propName : String)
deriving DecidableEq

/-- The CallToolRequestSchema handler of src/index.ts (lines 120-163) over a
handler table: the handler is looked up as a JS property (prototype chain
included); only an undefined result — a name that is neither a registered
key nor an Object.prototype property — makes the guard throw
McpError(MethodNotFound), rethrown as is by the catch block; a registered
handler is executed, its thrown errors wrapped in an error payload, its
result serialized back; an inherited property passes the guard and is
invoked. The second component collects every gateway call performed. -/
def callToolHandler (table : List (String × (ToolArgs → HandlerResult)))
    (name : String) (args : ToolArgs) : CallToolOutcome × List GatewayCall :=
  match getProperty table name with
  | .undefined => (.mcpError ⟨.methodNotFound, "Unknown tool: " ++ name⟩, [])
  | .inherited n => (.inheritedInvocation n, [])
  | .own handler =>
    match (handler args).result with
    | .ok v => (.success v, (handler args).calls)
    | .error m => (.errorText ("Error: " ++ m), (handler args).calls)

theorem lookup_eq_none_of_not_mem_keys (table : List (String × (ToolArgs → HandlerResult)))
    (name : String) (h : name ∉ table.map Prod.fst) : List.lookup name table = none := by
  induction table with
  | nil => rfl
  | cons p ps ih =>
    simp only [List.map_cons, List.mem_cons] at h
    push_neg at h
    have hne : (name == p.1) = false := beq_eq_false_iff_ne.mpr h.1
    show List.lookup name (p :: ps) = none
    rw [List.lookup_cons]
    rw [hne]
    exact ih h.2

/-- Counterexample to claim C6: the name toString is not a key of the
registered handler table, yet dispatching it yields no method-not-found
failure — the truthiness guard passes on the inherited
Object.prototype.toString and the dispatch proceeds to invoke it. -/
theorem c6_unknown_tool_counterexample :
    "toString" ∉ registeredToolNames ∧
    (callToolHandler (registeredToolNames.map fun n => (n, fun _ => ⟨[], .ok ""⟩))
        "toString" {}).1 = CallToolOutcome.inheritedInvocation "toString" ∧
    (callToolHandler (registeredToolNames.map fun n => (n, fun _ => ⟨[], .ok ""⟩))
        "toString" {}).1 ≠
      CallToolOutcome.mcpError ⟨.methodNotFound, "Unknown tool: " ++ "toString"⟩ := by
  refine ⟨by decide, ?_, ?_⟩ <;> decide

/-- Claim C6 as amended: dispatching an operation name that is neither a key
of the registered handler table nor an Object.prototype property name
yields McpError(MethodNotFound) and performs no gateway call, whatever the
handler bodies (so no handler is invoked); a non-key name that is an
inherited Object.prototype property instead passes the truthiness guard and
is invoked, producing no method-not-found failure, while still performing
no gateway call. -/
theorem c6_amended_unknown_tool
    (table : List (String × (ToolArgs → HandlerResult))) (name : String) (args : ToolArgs)
    (htable : table.map Prod.fst = registeredToolNames)
    (hname : name ∉ registeredToolNames) :
    (name ∉ objectPrototypeProps →
      callToolHandler table name args =
        (.mcpError ⟨.methodNotFound, "Unknown tool: " ++ name⟩, [])) ∧
    (name ∈ objectPrototypeProps →
      callToolHandler table name args = (.inheritedInvocation name, [])) := by
  have hlookup : List.lookup name table = none :=
    lookup_eq_none_of_not_mem_keys table name (by rw [htable]; exact hname)
  constructor
  · intro hp
    unfold callToolHandler getProperty
    rw [hlookup, if_neg hp]
  · intro hp
    unfold callToolHandler getProperty
    rw [hlookup, if_pos hp]

/-- Witness for the amended C6: against a table with exactly the registered
names, nonexistent_tool yields MethodNotFound with no gateway call, while
the inherited name valueOf passes the guard and is invoked, also with no
gateway call. -/
theorem c6_amended_unknown_tool_witness :
    callToolHandler (registeredToolNames.map fun n => (n, fun _ => ⟨[], .ok ""⟩))
      "nonexistent_tool" {} =
      (.mcpError ⟨.methodNotFound, "Unknown tool: " ++ "nonexistent_tool"⟩, []) ∧
    callToolHandler (registeredToolNames.map fun n => (n, fun _ => ⟨[], .ok ""⟩))
      "valueOf" {} = (.inheritedInvocation "valueOf", []) :=
  ⟨(c6_amended_unknown_tool (registeredToolNames.map fun n => (n, fun _ => ⟨[], .ok ""⟩))
      "nonexistent_tool" {} (by simp [Function.comp_def]) (by decide)).1 (by decide),
   (c6_amended_unknown_tool (registeredToolNames.map fun n => (n, fun _ => ⟨[], .ok ""⟩))
      "valueOf" {} (by simp [Function.comp_def]) (by decide)).2 (by decide)⟩

end TrelloSpec
